import Mathlib

/-!
# Verification of the xcsv worksheet-to-CSV converter

Shallow embedding of the xcsv core (src/lib.rs): string/number parsing
helpers, cell-reference decoding, style resolution, the Excel serial-date
converter, and the worksheet stream converter state machine, together with
theorems settling the specification claims.

Modelling conventions:
* Rust `u32`/`usize` parses are `Option Nat` bounded by `2^32`/`2^64`
  (overflow in `str::parse` yields `Err`, modelled as `none`).
* Rust `u32` arithmetic that can wrap in release builds is written with an
  explicit `% 2^32`; `i32`/`i64` saturating float casts are explicit clamps.
* `f64` values flowing through the date converter are modelled as exact
  rationals (`ℚ`): decimal text parses to its exact rational value, and the
  converter's arithmetic (floor, subtract, scale, round) is done in `ℚ`.
  This represents the algorithm without binary rounding noise, infinities
  or NaN, which the claims do not concern.
* The XML layer (quick-xml) is abstracted to an event list: start/empty
  tags with their attribute lists (decoded, in document order — the Rust
  code folds over attributes with last-occurrence-wins assignment, which
  the embedding reproduces), end tags, and already-unescaped text nodes.
* The CSV writer is abstracted to the list of records handed to it; a
  record is a `List String`.
-/

/-! ## Rust string primitives -/

/-- The set of `char::is_whitespace` characters (Unicode `White_Space`),
used by Rust `str::trim`. -/
def rustIsWhitespace (c : Char) : Bool :=
  [9, 10, 11, 12, 13, 32, 0x85, 0xA0, 0x1680].contains c.toNat
    || (decide (0x2000 ≤ c.toNat) && decide (c.toNat ≤ 0x200A))
    || [0x2028, 0x2029, 0x202F, 0x205F, 0x3000].contains c.toNat

/-- Rust `str::trim`: strip leading and trailing whitespace. -/
def rustTrim (s : String) : String :=
  String.mk (((s.data.dropWhile rustIsWhitespace).reverse.dropWhile
    rustIsWhitespace).reverse)

/-- ASCII lowercasing of every character (`str::to_lowercase` restricted to
the ASCII case mappings, which is all the format-code date check observes). -/
def rustLowerAscii (s : String) : String := String.mk (s.data.map Char.toLower)

/-- ASCII uppercasing of every character (`str::to_ascii_uppercase`). -/
def rustUpperAscii (s : String) : String := String.mk (s.data.map Char.toUpper)

/-- Rust `eq_ignore_ascii_case`. -/
def asciiEqIgnoreCase (a b : String) : Bool :=
  a.data.map Char.toLower == b.data.map Char.toLower

/-- Rust `[u8]::ends_with`, on the character level (the tag names compared
against are pure ASCII, where byte suffixes and character suffixes agree). -/
def strEndsWith (a b : String) : Bool := b.data.isSuffixOf a.data

/-- Rust `str::contains(char)`. -/
def containsChar (s : String) (c : Char) : Bool := s.data.contains c

/-- `tag_eq_ignore_case` from src/lib.rs. -/
def tag_eq_ignore_case (actual expect : String) : Bool :=
  asciiEqIgnoreCase actual expect
    || strEndsWith actual expect
    || strEndsWith actual (rustLowerAscii expect)
    || strEndsWith actual (rustUpperAscii expect)

/-! ## Rust integer parsing (`str::parse::<u32>` / `::<usize>`) -/

/-- Digits of an unsigned integer literal: optional leading `+`, then at
least one ASCII digit.  Returns the (unbounded) value. -/
def parseUIntAux (s : String) : Option Nat :=
  let chars := match s.data with
    | '+' :: rest => rest
    | cs => cs
  if chars.isEmpty then none
  else if chars.all Char.isDigit then
    some (chars.foldl (fun n c => n * 10 + (c.toNat - 48)) 0)
  else none

/-- `str::parse::<u32>().ok()`: `none` on syntax error or u32 overflow. -/
def parseU32 (s : String) : Option Nat :=
  (parseUIntAux s).bind (fun n => if n < 2 ^ 32 then some n else none)

/-- `str::parse::<usize>().ok()` (64-bit targets). -/
def parseUsize (s : String) : Option Nat :=
  (parseUIntAux s).bind (fun n => if n < 2 ^ 64 then some n else none)

/-! ## Rust decimal (`f64`) parsing, modelled exactly over `ℚ` -/

/-- Value of a digit list read most-significant first. -/
def digitsVal (ds : List Char) : Nat :=
  ds.foldl (fun n c => n * 10 + (c.toNat - 48)) 0

/-- Power of ten as a rational, for signed exponents. -/
def pow10 (e : Int) : ℚ :=
  if 0 ≤ e then ((10 ^ e.toNat : ℕ) : ℚ) else 1 / ((10 ^ (-e).toNat : ℕ) : ℚ)

/-- Parse the exponent part of a float literal (digits after `e`/`E`). -/
def parseExpPart (cs : List Char) : Option Int :=
  let (sgn, ds) : Int × List Char := match cs with
    | '+' :: rest => (1, rest)
    | '-' :: rest => (-1, rest)
    | rest => (1, rest)
  if ds.isEmpty then none
  else if ds.all Char.isDigit then some (sgn * (digitsVal ds : Int))
  else none

/-- Parse mantissa-and-exponent after the sign: `digits [. digits] [e exp]`
or `. digits [e exp]`.  Mirrors the finite part of Rust's `f64` grammar. -/
def parseMantissa (cs : List Char) : Option ℚ :=
  let intPart := cs.takeWhile Char.isDigit
  let rest := cs.dropWhile Char.isDigit
  match rest with
  | [] => if intPart.isEmpty then none else some ((digitsVal intPart : ℕ) : ℚ)
  | '.' :: rest2 =>
      let fracPart := rest2.takeWhile Char.isDigit
      let rest3 := rest2.dropWhile Char.isDigit
      if intPart.isEmpty ∧ fracPart.isEmpty then none
      else
        let mant : ℚ :=
          ((digitsVal (intPart ++ fracPart) : ℕ) : ℚ) * pow10 (-(fracPart.length : Int))
        match rest3 with
        | [] => some mant
        | 'e' :: es => (parseExpPart es).map (fun e => mant * pow10 e)
        | 'E' :: es => (parseExpPart es).map (fun e => mant * pow10 e)
        | _ => none
  | 'e' :: es =>
      if intPart.isEmpty then none
      else (parseExpPart es).map (fun e => ((digitsVal intPart : ℕ) : ℚ) * pow10 e)
  | 'E' :: es =>
      if intPart.isEmpty then none
      else (parseExpPart es).map (fun e => ((digitsVal intPart : ℕ) : ℚ) * pow10 e)
  | _ => none

/-- `str::parse::<f64>().ok()`, restricted to finite decimal literals and
modelled exactly over `ℚ` (no rounding to binary, no `inf`/`nan` forms). -/
def parseF64 (s : String) : Option ℚ :=
  match s.data with
  | [] => none
  | '+' :: rest => parseMantissa rest
  | '-' :: rest => (parseMantissa rest).map Neg.neg
  | cs => parseMantissa cs

/-! ## Cell references (`CellRef`, `col_to_index`, `parse_cell_ref`) -/

/-- `CellRef` from src/lib.rs: 1-based column and row (u32 values). -/
structure CellRef where
  col : Nat
  row : Nat
deriving Repr, DecidableEq

/-- The loop body of `col_to_index`: `n = n * 26 + (b - b'A' + 1)` on `u32`
(wrapping on overflow, as in release builds), breaking at the first
character outside `A..=Z`. -/
def col_to_index_aux : Nat → List Char → Nat
  | n, [] => n
  | n, c :: rest =>
      if 65 ≤ c.toNat ∧ c.toNat ≤ 90 then
        col_to_index_aux ((n * 26 + (c.toNat - 64)) % 2 ^ 32) rest
      else n

/-- `col_to_index` from src/lib.rs. -/
def col_to_index (s : String) : Nat := col_to_index_aux 0 s.data

/-- `parse_cell_ref` from src/lib.rs: alphabetic characters (uppercased)
form the column, everything else the row digits, in order. -/
def parse_cell_ref (s : String) : Option CellRef :=
  let colChars := (s.data.filter Char.isAlpha).map Char.toUpper
  let rowChars := s.data.filter (fun c => !c.isAlpha)
  if colChars.isEmpty ∨ rowChars.isEmpty then none
  else
    match parseU32 (String.mk rowChars) with
    | some r => some ⟨col_to_index (String.mk colChars), r⟩
    | none => none

/-! ## Output file names (`to_lowercase_filename`) -/

/-- Per-character mapping of `to_lowercase_filename`. -/
def filenameMapChar (c : Char) : Char :=
  if c.isAlphanum ∨ c = '-' ∨ c = '_' then c.toLower else '_'

/-- `to_lowercase_filename` from src/lib.rs. -/
def to_lowercase_filename (name : String) : String :=
  let s := String.mk (name.data.map filenameMapChar)
  if s.data.isEmpty then "sheet" else s

/-! ## Style resolution (`StyleInfo`, `process_xf`) -/

/-- `StyleInfo` from src/lib.rs. -/
structure StyleInfo where
  is_date : Bool
deriving Repr, DecidableEq

/-- The built-in date number-format id ranges tested in `process_xf`. -/
def is_builtin_date (id : Nat) : Bool :=
  (decide (14 ≤ id) && decide (id ≤ 22)) || (decide (27 ≤ id) && decide (id ≤ 36))
    || (decide (45 ≤ id) && decide (id ≤ 47)) || (decide (50 ≤ id) && decide (id ≤ 58))
    || (decide (67 ≤ id) && decide (id ≤ 71)) || (decide (75 ≤ id) && decide (id ≤ 81))

/-- The custom number-format map (`BTreeMap<u32, String>`), as a lookup. -/
def NumFmts : Type := Nat → Option String

/-- Attribute scan of `process_xf`: `numFmtId` and `applyNumberFormat` are
reassigned at every occurrence of their key (last occurrence wins), the
apply flag defaulting to `true` and becoming `parse::<u32>().ok() == Some(1)`
when present. -/
def xfAttrStep (acc : Option Nat × Bool) (a : String × String) : Option Nat × Bool :=
  if a.1 = "numFmtId" then (parseU32 a.2, acc.2)
  else if a.1 = "applyNumberFormat" then (acc.1, parseU32 a.2 == some 1)
  else acc

/-- The attribute scan of `process_xf`, from its initial accumulator
(`num_fmt_id_attr = None`, `apply_num_fmt = true`). -/
def xfAttrScan (attrs : List (String × String)) : Option Nat × Bool :=
  attrs.foldl xfAttrStep (none, true)

/-- `process_xf` from `parse_styles` in src/lib.rs. -/
def process_xf (attrs : List (String × String)) (num_fmts : NumFmts) : StyleInfo :=
  let (num_fmt_id_attr, apply_num_fmt) := xfAttrScan attrs
  if apply_num_fmt then
    match num_fmt_id_attr with
    | some id =>
        if is_builtin_date id then ⟨true⟩
        else
          match num_fmts id with
          | some format_code =>
              let lower := rustLowerAscii format_code
              if (containsChar lower 'y' || containsChar lower 'd'
                    || containsChar lower 'm') && !containsChar lower '#' then
                ⟨true⟩
              else ⟨false⟩
          | none => ⟨false⟩
    | none => ⟨false⟩
  else ⟨false⟩

/-! ## The Excel serial-date converter (`excel_serial_to_iso_date`) -/

/-- `i32` saturating cast of a float's floor (`serial.floor() as i32`). -/
def sat_i32 (z : Int) : Int :=
  if z < -(2 ^ 31) then -(2 ^ 31) else if z > 2 ^ 31 - 1 then 2 ^ 31 - 1 else z

/-- `i64` saturating cast (`unix_seconds as i64`). -/
def sat_i64 (z : Int) : Int :=
  if z < -(2 ^ 63) then -(2 ^ 63) else if z > 2 ^ 63 - 1 then 2 ^ 63 - 1 else z

/-- Wrapping `i32` subtraction result (`days - excel_epoch_days` on `i32`,
release-build two's-complement wrap). -/
def wrap_i32 (z : Int) : Int := (z + 2 ^ 31) % 2 ^ 32 - 2 ^ 31

/-- Rust `f64::round`: round half away from zero. -/
def rustRound (q : ℚ) : Int :=
  if 0 ≤ q then Rat.floor (q + 1 / 2) else -Rat.floor (-q + 1 / 2)

/-- Days since 1970-01-01 of a proleptic Gregorian date
(Howard Hinnant's `days_from_civil`). -/
def days_from_civil (y m d : Int) : Int :=
  let y := y - (if m ≤ 2 then 1 else 0)
  let era := Int.ediv y 400
  let yoe := y - era * 400
  let doy := Int.ediv (153 * (m + (if 2 < m then -3 else 9)) + 2) 5 + d - 1
  let doe := yoe * 365 + Int.ediv yoe 4 - Int.ediv yoe 100 + doy
  era * 146097 + doe - 719468

/-- Proleptic Gregorian date of a days-since-1970-01-01 count
(Howard Hinnant's `civil_from_days`); the mapping chrono implements. -/
def civil_from_days (z : Int) : Int × Int × Int :=
  let z := z + 719468
  let era := Int.ediv z 146097
  let doe := z - era * 146097
  let yoe := Int.ediv
    (doe - Int.ediv doe 1460 + Int.ediv doe 36524 - Int.ediv doe 146096) 365
  let y := yoe + era * 400
  let doy := doe - (365 * yoe + Int.ediv yoe 4 - Int.ediv yoe 100)
  let mp := Int.ediv (5 * doy + 2) 153
  let d := doy - Int.ediv (153 * mp + 2) 5 + 1
  let m := mp + (if mp < 10 then 3 else -9)
  (y + (if m ≤ 2 then 1 else 0), m, d)

/-- First day representable by chrono's `NaiveDate`
(`MIN_YEAR = i32::MIN >> 13 = -262144`, January 1). -/
def chrono_min_day : Int := days_from_civil (-262144) 1 1

/-- Last day representable by chrono's `NaiveDate`
(`MAX_YEAR = i32::MAX >> 13 = 262143`, December 31). -/
def chrono_max_day : Int := days_from_civil 262143 12 31

/-- Left-pad a natural number with zeros to a given width. -/
def padNum (width : Nat) (n : Nat) : String :=
  let s := toString n
  String.mk (List.replicate (width - s.data.length) '0') ++ s

/-- chrono's `%Y`: zero-padded to 4 digits, `-` for negative years and `+`
for years beyond 9999. -/
def formatYear (y : Int) : String :=
  if y < 0 then "-" ++ padNum 4 (-y).toNat
  else if y ≤ 9999 then padNum 4 y.toNat
  else "+" ++ toString y.toNat

/-- chrono's `DateTime::from_timestamp(ts, 0)` followed by
`format("%Y-%m-%dT%H:%M:%S%.3fZ")`: `none` iff the timestamp's day falls
outside `NaiveDate`'s range; the sub-second field is always `.000`. -/
def chrono_format_timestamp (ts : Int) : Option String :=
  let day := Int.ediv ts 86400
  if chrono_min_day ≤ day ∧ day ≤ chrono_max_day then
    let ymd := civil_from_days day
    let tod := Int.emod ts 86400
    some (formatYear ymd.1 ++ "-" ++ padNum 2 ymd.2.1.toNat ++ "-"
      ++ padNum 2 ymd.2.2.toNat ++ "T" ++ padNum 2 (Int.ediv tod 3600).toNat
      ++ ":" ++ padNum 2 (Int.emod (Int.ediv tod 60) 60).toNat
      ++ ":" ++ padNum 2 (Int.emod tod 60).toNat ++ ".000Z")
  else none

/-- `excel_serial_to_iso_date` from src/lib.rs, over the exact-rational
model of `f64`. -/
def excel_serial_to_iso_date (serial : ℚ) (is_1904 : Bool) : Option String :=
  let excel_epoch_days : Int := if is_1904 then 24107 else 25569
  let days : Int := sat_i32 (Rat.floor serial)
  let time_fraction : ℚ := serial - (days : ℚ)
  let unix_days : Int := wrap_i32 (days - excel_epoch_days)
  let unix_seconds : Int :=
    sat_i64 (unix_days * 86400 + rustRound (time_fraction * 86400))
  chrono_format_timestamp unix_seconds


/-! ## The worksheet stream converter (`export_sheet_xml_to_csv`) -/

/-- quick-xml events as consumed by `export_sheet_xml_to_csv`: start/empty
tags carry their decoded attribute list in document order, text nodes are
already unescaped.  `Eof` is the end of the event list. -/
inductive XEvent where
  | Start (name : String) (attrs : List (String × String))
  | Empty (name : String) (attrs : List (String × String))
  | End (name : String)
  | Text (txt : String)
deriving Repr, DecidableEq

/-- One CSV record, as handed to `csv::Writer::write_record`. -/
abbrev Record := List String

/-- The converter state carried across events in `export_sheet_xml_to_csv`. -/
structure ConvState where
  num_columns : Option Nat
  current_row_idx : Nat
  row_vals : List String
  cell_col : Option Nat
  cell_type : Option String
  cell_style_idx : Option Nat
  cell_val : String
deriving Repr, DecidableEq

/-- The initial converter state. -/
def initState : ConvState := ⟨none, 0, [], none, none, none, ""⟩

/-- Scan of a `row` start tag's attributes: `r_attr` is reassigned to
`parse::<u32>().ok()` at every occurrence of key `r` (last wins). -/
def rowRAttr (attrs : List (String × String)) : Option Nat :=
  attrs.foldl (fun acc a => if a.1 = "r" then parseU32 a.2 else acc) none

/-- Scan of a `c` start tag's attributes: `r` (cell reference), `t` (type
tag) and `s` (style index), each reassigned at every occurrence. -/
def cellAttrScan (attrs : List (String × String)) :
    Option CellRef × Option String × Option Nat :=
  attrs.foldl
    (fun acc a =>
      if a.1 = "r" then (parse_cell_ref a.2, acc.2.1, acc.2.2)
      else if a.1 = "t" then (acc.1, some a.2, acc.2.2)
      else if a.1 = "s" then (acc.1, acc.2.1, parseU32 a.2)
      else acc)
    (none, none, none)

/-- Row-start handling: the declared row number (default: previous + 1)
skipping ahead emits one empty record per skipped row, then the row buffer
is cleared. -/
def rowStartStep (st : ConvState) (attrs : List (String × String)) :
    ConvState × List Record :=
  let next := (rowRAttr attrs).getD (st.current_row_idx + 1)
  ({ st with current_row_idx := next, row_vals := [] },
    List.replicate (next - (st.current_row_idx + 1)) [])

/-- Cell-start handling: reset the pending cell and read its attributes
(`cell_col` is set only when the `r` attribute parsed). -/
def cellStartStep (st : ConvState) (attrs : List (String × String)) : ConvState :=
  let (rAttr, t, sIdx) := cellAttrScan attrs
  { st with cell_col := rAttr.map CellRef.col, cell_type := t,
            cell_val := "", cell_style_idx := sIdx }

/-- Whether the pending style index resolves to a date-flagged style
(`cell_style_idx.and_then(|i| styles.get(i)).is_some_and(|s| s.is_date)`). -/
def style_is_date (styles : List StyleInfo) (idx : Option Nat) : Bool :=
  ((idx.bind (fun i => styles.get? i)).map StyleInfo.is_date).getD false

/-- Resolution of a closed cell to its final text, by type tag — the
`let v = match cell_type.as_deref() { ... }` block of
`export_sheet_xml_to_csv`. -/
def resolve_cell (shared_strings : List String) (styles : List StyleInfo)
    (is_1904 : Bool) (cell_type : Option String) (cell_style_idx : Option Nat)
    (cell_val : String) : String :=
  match cell_type with
  | some "s" =>
      match parseUsize (rustTrim cell_val) with
      | some idx => (shared_strings.get? idx).getD ""
      | none => ""
  | some "b" => if rustTrim cell_val = "1" then "TRUE" else "FALSE"
  | some "inlineStr" | some "str" => cell_val
  | some "e" => "#ERROR:" ++ cell_val
  | _ =>
      match parseF64 (rustTrim cell_val) with
      | some num =>
          if style_is_date styles cell_style_idx then
            (excel_serial_to_iso_date num is_1904).getD cell_val
          else cell_val
      | none => cell_val

/-- The column a closing cell resolves to: its parsed address, defaulting
to one past the current buffer length (append). -/
def resolvedCol (st : ConvState) : Nat :=
  st.cell_col.getD (st.row_vals.length + 1)

/-- Cell-end handling: grow the buffer to the resolved column, place the
resolved value at `col - 1`, reset the pending cell.  `none` models the
index panic `row_vals[(col as usize) - 1]` when the resolved column is `0`
(possible only through a u32-wrapped cell address). -/
def cellEndStep (shared_strings : List String) (styles : List StyleInfo)
    (is_1904 : Bool) (st : ConvState) : Option ConvState :=
  let col := resolvedCol st
  if col = 0 then none
  else
    let rv := if st.row_vals.length < col then
        st.row_vals ++ List.replicate (col - st.row_vals.length) ""
      else st.row_vals
    let v := resolve_cell shared_strings styles is_1904 st.cell_type
      st.cell_style_idx st.cell_val
    some { st with row_vals := rv.set (col - 1) v, cell_col := none,
                   cell_type := none, cell_val := "", cell_style_idx := none }

/-- `row_vals.iter().rposition(|c| !c.is_empty()).map_or(0, |i| i + 1)`:
one past the last non-empty position (0 when every cell is empty). -/
def rowWidth (vs : List String) : Nat :=
  ((vs.reverse.findIdx? (fun c => !c.isEmpty)).map
    (fun j => vs.length - j)).getD 0

/-- Row-end handling: the first closed row fixes `num_columns` to its
trailing-trimmed width; every closed row is padded up to `num_columns`
when shorter, emitted, and the buffer cleared. -/
def rowEndStep (st : ConvState) : ConvState × List Record :=
  let n := match st.num_columns with
    | none => rowWidth st.row_vals
    | some n => n
  let rv := if st.row_vals.length < n then
      st.row_vals ++ List.replicate (n - st.row_vals.length) ""
    else st.row_vals
  ({ st with num_columns := some n, row_vals := [] }, [rv])

/-- One iteration of the event loop of `export_sheet_xml_to_csv`.  `none`
models a panic (see `cellEndStep`); otherwise the next state plus the
records written during this event. -/
def stepEvent (shared_strings : List String) (styles : List StyleInfo)
    (is_1904 : Bool) (st : ConvState) (ev : XEvent) :
    Option (ConvState × List Record) :=
  match ev with
  | .Start name attrs =>
      if tag_eq_ignore_case name "row" then some (rowStartStep st attrs)
      else if tag_eq_ignore_case name "c" then some (cellStartStep st attrs, [])
      else if tag_eq_ignore_case name "is" then
        some ({ st with cell_val := "" }, [])
      else some (st, [])
  | .Empty _ _ => some (st, [])
  | .End name =>
      if tag_eq_ignore_case name "c" then
        (cellEndStep shared_strings styles is_1904 st).map (fun s => (s, []))
      else if tag_eq_ignore_case name "row" then some (rowEndStep st)
      else some (st, [])
  | .Text txt =>
      some ({ st with cell_val :=
        if txt.isEmpty then st.cell_val else st.cell_val ++ txt }, [])

/-- Run the event loop from a state, accumulating written records. -/
def runEvents (shared_strings : List String) (styles : List StyleInfo)
    (is_1904 : Bool) : ConvState → List XEvent → Option (ConvState × List Record)
  | st, [] => some (st, [])
  | st, ev :: rest =>
      match stepEvent shared_strings styles is_1904 st ev with
      | none => none
      | some (st', out) =>
          match runEvents shared_strings styles is_1904 st' rest with
          | none => none
          | some (st'', out') => some (st'', out ++ out')

/-- `export_sheet_xml_to_csv` as a function from the event list to the
records written: run from the initial state, then flush a non-empty
leftover buffer at `Eof`. -/
def export_sheet (shared_strings : List String) (styles : List StyleInfo)
    (is_1904 : Bool) (events : List XEvent) : Option (List Record) :=
  (runEvents shared_strings styles is_1904 initState events).map
    (fun p => if p.1.row_vals.isEmpty then p.2 else p.2 ++ [p.1.row_vals])

/-! ## The CLI export operation (delimiter validation) -/

/-- Modelled from the spec: the CLI `export` entry point that accepts a
delimiter is not present under src (src/main.rs predates the delimiter
option, while src/lib.rs's `export_sheet_xml_to_csv` already takes the
delimiter byte).  Per the spec, the delimiter is "comma or semicolon only —
any other value is rejected before reaching this component", a "user-input
error rejected before processing starts".  The delimiter is a byte; 44 is
`,` and 59 is `;`. -/
def export_command (delimiter : Nat) (shared_strings : List String)
    (styles : List StyleInfo) (is_1904 : Bool) (sheets : List (List XEvent)) :
    Except String (List (List Record)) :=
  if delimiter = 44 ∨ delimiter = 59 then
    match sheets.mapM (export_sheet shared_strings styles is_1904) with
    | some outs => .ok outs
    | none => .error "worksheet conversion panicked"
  else .error "delimiter must be comma or semicolon"

/-! # Helper lemmas -/

/-- A map whose function is constant on the list is a `replicate`. -/
theorem map_eq_replicate_of_all {α β : Type} (f : α → β) (b : β) :
    ∀ l : List α, (∀ c ∈ l, f c = b) → l.map f = List.replicate l.length b
  | [], _ => rfl
  | a :: t, h => by
      simp only [List.map_cons, List.length_cons, List.replicate_succ,
        h a (List.mem_cons_self a t)]
      exact List.cons_eq_cons.mpr ⟨rfl,
        map_eq_replicate_of_all f b t fun c hc => h c (List.mem_cons_of_mem a hc)⟩

/-- Attributes without an `applyNumberFormat` key leave the apply flag of
the accumulator unchanged. -/
theorem xfAttrScan_snd_of_no_apply :
    ∀ (attrs : List (String × String)) (init : Option Nat × Bool),
      (∀ a ∈ attrs, a.1 ≠ "applyNumberFormat") →
      (attrs.foldl xfAttrStep init).2 = init.2
  | [], _, _ => rfl
  | a :: t, init, h => by
      have ht := xfAttrScan_snd_of_no_apply t (xfAttrStep init a)
        fun x hx => h x (List.mem_cons_of_mem a hx)
      have ha : a.1 ≠ "applyNumberFormat" := h a (List.mem_cons_self a t)
      simp only [List.foldl_cons, ht]
      unfold xfAttrStep
      by_cases h1 : a.1 = "numFmtId" <;> simp [h1, ha]

/-! # Claim theorems -/

/-- C2: for a cell with type tag `s`, a parsable in-range index resolves to
exactly the shared-string table's entry at that index; an out-of-range or
unparsable index resolves to the empty string; resolution is a total
function (no error outcome exists). -/
theorem shared_string_resolution (ss : List String) (styles : List StyleInfo)
    (b : Bool) (sIdx : Option Nat) (txt : String) :
    (∀ i v, parseUsize (rustTrim txt) = some i → ss[i]? = some v →
      resolve_cell ss styles b (some "s") sIdx txt = v)
    ∧ (∀ i, parseUsize (rustTrim txt) = some i → ss.length ≤ i →
      resolve_cell ss styles b (some "s") sIdx txt = "")
    ∧ (parseUsize (rustTrim txt) = none →
      resolve_cell ss styles b (some "s") sIdx txt = "") := by
  refine ⟨fun i v hi hv => ?_, fun i hi hlen => ?_, fun h => ?_⟩
  · simp [resolve_cell, hi, hv]
  · simp [resolve_cell, hi, List.getElem?_eq_none hlen]
  · simp [resolve_cell, h]

/-- Witness for `shared_string_resolution`: index 3 of a four-string table
resolves to the fourth string, index 99 and unparsable text to `""`. -/
theorem shared_string_resolution_witness :
    resolve_cell ["s0", "s1", "s2", "s3"] [] false (some "s") none "3" = "s3"
    ∧ resolve_cell ["s0", "s1", "s2", "s3"] [] false (some "s") none "99" = ""
    ∧ resolve_cell ["s0", "s1", "s2", "s3"] [] false (some "s") none "x" = "" :=
  ⟨(shared_string_resolution ["s0", "s1", "s2", "s3"] [] false none "3").1 3 "s3"
      (by decide) (by decide),
   (shared_string_resolution ["s0", "s1", "s2", "s3"] [] false none "99").2.1 99
      (by decide) (by decide),
   (shared_string_resolution ["s0", "s1", "s2", "s3"] [] false none "x").2.2
      (by decide)⟩

/-- C5 counterexample: the code compares the TRIMMED text against `"1"`,
so the text `" 1"` (which is not the string `"1"`, merely trims to it)
resolves to `"TRUE"`, where the claim requires `"FALSE"`. -/
theorem bool_cell_counterexample :
    resolve_cell [] [] false (some "b") none " 1" = "TRUE" ∧ " 1" ≠ "1" :=
  ⟨by with_unfolding_all rfl, by decide⟩

/-- C5 (amended): for a cell with type tag `b`, text whose trim equals
`"1"` resolves to `"TRUE"` and any other text resolves to `"FALSE"`. -/
theorem bool_cell_resolution (ss : List String) (styles : List StyleInfo)
    (b : Bool) (sIdx : Option Nat) (txt : String) :
    (rustTrim txt = "1" → resolve_cell ss styles b (some "b") sIdx txt = "TRUE")
    ∧ (rustTrim txt ≠ "1" →
        resolve_cell ss styles b (some "b") sIdx txt = "FALSE") := by
  constructor <;> intro h <;> simp [resolve_cell, h]

/-- Witness for `bool_cell_resolution`. -/
theorem bool_cell_resolution_witness :
    resolve_cell [] [] false (some "b") none "1" = "TRUE"
    ∧ resolve_cell [] [] false (some "b") none "0" = "FALSE" :=
  ⟨(bool_cell_resolution [] [] false none "1").1 (by decide),
   (bool_cell_resolution [] [] false none "0").2 (by decide)⟩

/-- C8 counterexample: a name consisting entirely of non-matching
characters maps to underscores, not to the fallback name `"sheet"`. -/
theorem filename_fallback_counterexample :
    to_lowercase_filename "!" = "_" ∧ to_lowercase_filename "!" ≠ "sheet" := by
  exact ⟨by decide, by decide⟩

/-- C8 (amended): the output name lowercases matching characters and
replaces every character that is not ASCII-alphanumeric, `-` or `_` with
`_`; the fallback `"sheet"` applies exactly to the empty name, and a
non-empty name of entirely non-matching characters becomes all
underscores. -/
theorem filename_derivation (name : String) :
    (name.data = [] → to_lowercase_filename name = "sheet")
    ∧ (name.data ≠ [] →
        to_lowercase_filename name = String.mk (name.data.map filenameMapChar))
    ∧ (name.data ≠ [] →
        (∀ c ∈ name.data, ¬(c.isAlphanum ∨ c = '-' ∨ c = '_')) →
        to_lowercase_filename name =
          String.mk (List.replicate name.data.length '_')) := by
  have hmain : name.data ≠ [] →
      to_lowercase_filename name = String.mk (name.data.map filenameMapChar) :=
    fun h => by simp [to_lowercase_filename, h]
  refine ⟨fun h => by simp [to_lowercase_filename, h], hmain, fun h hall => ?_⟩
  have hmap : name.data.map filenameMapChar =
      List.replicate name.data.length '_' :=
    map_eq_replicate_of_all filenameMapChar '_' name.data
      fun c hc => by simp [filenameMapChar, hall c hc]
  rw [hmain h, hmap]

/-- Witness for `filename_derivation`. -/
theorem filename_derivation_witness :
    to_lowercase_filename "" = "sheet"
    ∧ to_lowercase_filename "My Sheet-1" =
        String.mk ("My Sheet-1".data.map filenameMapChar)
    ∧ to_lowercase_filename "!?" = String.mk (List.replicate "!?".data.length '_') :=
  ⟨(filename_derivation "").1 (by decide),
   (filename_derivation "My Sheet-1").2.1 (by decide),
   (filename_derivation "!?").2.2 (by decide) (by decide)⟩

/-- C7 counterexample: `applyNumberFormat` values that are neither `1` nor
false/zero — e.g. `"2"` or `"true"` — disable formatting (the code demands
`parse::<u32>().ok() == Some(1)`), so a style with built-in date format id
14 and `applyNumberFormat="2"` is NOT marked as a date, where the claim
requires it to be. -/
theorem apply_flag_counterexample :
    (process_xf [("numFmtId", "14"), ("applyNumberFormat", "2")]
      (fun _ => none)).is_date = false
    ∧ (process_xf [("numFmtId", "14"), ("applyNumberFormat", "true")]
        (fun _ => none)).is_date = false
    ∧ is_builtin_date 14 = true := by
  exact ⟨by decide, by decide, by decide⟩

/-- C7 (amended): the apply flag defaults to true when the attribute is
absent; a present attribute (last occurrence winning) enables formatting
exactly when its value parses as the u32 `1`, every other present value —
`"0"`, `"false"`, `"2"`, `"true"`, … — disables it; a disabled flag means
the style is never a date, and an enabled flag with a built-in date format
id marks the style as a date. -/
theorem apply_flag_semantics (attrs : List (String × String)) (m : NumFmts) :
    ((∀ a ∈ attrs, a.1 ≠ "applyNumberFormat") → (xfAttrScan attrs).2 = true)
    ∧ (∀ pre v, attrs = pre ++ [("applyNumberFormat", v)] →
        (xfAttrScan attrs).2 = (parseU32 v == some 1))
    ∧ ((xfAttrScan attrs).2 = false → (process_xf attrs m).is_date = false)
    ∧ (∀ id, (xfAttrScan attrs).2 = true → (xfAttrScan attrs).1 = some id →
        is_builtin_date id = true → (process_xf attrs m).is_date = true) := by
  refine ⟨fun h => ?_, fun pre v h => ?_, fun h => ?_, fun id h1 h2 h3 => ?_⟩
  · exact xfAttrScan_snd_of_no_apply attrs (none, true) h
  · subst h
    unfold xfAttrScan
    rw [List.foldl_append]
    simp [xfAttrStep]
  · unfold process_xf
    rcases hscan : xfAttrScan attrs with ⟨fid, ap⟩
    rw [hscan] at h
    simp at h
    simp [h]
  · unfold process_xf
    rcases hscan : xfAttrScan attrs with ⟨fid, ap⟩
    rw [hscan] at h1 h2
    simp at h1 h2
    simp [h1, h2, h3]

/-- Witness for `apply_flag_semantics`. -/
theorem apply_flag_semantics_witness :
    (xfAttrScan [("numFmtId", "14")]).2 = true
    ∧ (xfAttrScan [("numFmtId", "14"), ("applyNumberFormat", "0")]).2 =
        (parseU32 "0" == some 1)
    ∧ (process_xf [("numFmtId", "14"), ("applyNumberFormat", "0")]
        (fun _ => none)).is_date = false
    ∧ (process_xf [("numFmtId", "14")] (fun _ => none)).is_date = true :=
  ⟨(apply_flag_semantics [("numFmtId", "14")] (fun _ => none)).1 (by decide),
   (apply_flag_semantics [("numFmtId", "14"), ("applyNumberFormat", "0")]
      (fun _ => none)).2.1 [("numFmtId", "14")] "0" rfl,
   (apply_flag_semantics [("numFmtId", "14"), ("applyNumberFormat", "0")]
      (fun _ => none)).2.2.1 (by decide),
   (apply_flag_semantics [("numFmtId", "14")] (fun _ => none)).2.2.2 14
      (by decide) (by decide) (by decide)⟩

/-- C9 (modelled from the spec, see `export_command`): any delimiter other
than comma (44) or semicolon (59) makes the export operation fail with a
user-input error before any worksheet is converted. -/
theorem delimiter_rejection (d : Nat) (ss : List String)
    (styles : List StyleInfo) (b : Bool) (sheets : List (List XEvent))
    (h1 : d ≠ 44) (h2 : d ≠ 59) :
    export_command d ss styles b sheets =
      .error "delimiter must be comma or semicolon" := by
  unfold export_command
  rw [if_neg]
  rintro (h | h) <;> [exact h1 h; exact h2 h]

/-- Witness for `delimiter_rejection`: the tab delimiter (9) is rejected. -/
theorem delimiter_rejection_witness :
    export_command 9 [] [] false [] =
      .error "delimiter must be comma or semicolon" :=
  delimiter_rejection 9 [] [] false [] (by decide) (by decide)

/-- C3: a row-start event declaring row number `n` ahead of
`current_row_index + 1` emits exactly `n - (current_row_index + 1)` records,
all of them fully empty, before the row's own content, and advances the
current row index to `n` with a cleared buffer. -/
theorem row_skip_emits_empty_rows (st : ConvState)
    (attrs : List (String × String)) (n : Nat) (h : rowRAttr attrs = some n)
    (hgt : st.current_row_idx + 1 < n) :
    (∀ ss styles b, stepEvent ss styles b st (.Start "row" attrs) =
      some (rowStartStep st attrs))
    ∧ (rowStartStep st attrs).2.length = n - (st.current_row_idx + 1)
    ∧ (∀ r ∈ (rowStartStep st attrs).2, r = ([] : Record))
    ∧ (rowStartStep st attrs).1.current_row_idx = n
    ∧ (rowStartStep st attrs).1.row_vals = [] := by
  refine ⟨fun ss styles b => rfl, ?_, ?_, ?_, ?_⟩
  · simp [rowStartStep, h]
  · intro r hr
    unfold rowStartStep at hr
    simp at hr
    exact hr.2
  · simp [rowStartStep, h]
  · rfl

/-- Witness for `row_skip_emits_empty_rows`: a row declared as row 5
immediately after row 2 produces exactly two empty records. -/
theorem row_skip_emits_empty_rows_witness :
    (rowStartStep ⟨none, 2, [], none, none, none, ""⟩ [("r", "5")]).2.length = 2
    ∧ (rowStartStep ⟨none, 2, [], none, none, none, ""⟩
        [("r", "5")]).1.current_row_idx = 5 :=
  ⟨by
    have h := (row_skip_emits_empty_rows ⟨none, 2, [], none, none, none, ""⟩
      [("r", "5")] 5 (by decide) (by decide)).2.1
    simpa using h,
   by
    have h := (row_skip_emits_empty_rows ⟨none, 2, [], none, none, none, ""⟩
      [("r", "5")] 5 (by decide) (by decide)).2.2.2.1
    simpa using h⟩

/-- C10: within one row, when a second cell closes at the same resolved
column position `c` as an earlier cell, the position holds the earlier
cell's resolved value after the first close and the later cell's resolved
value after the second close — the later value overwrites the earlier one. -/
theorem later_cell_overwrites (ss : List String) (styles : List StyleInfo)
    (b : Bool) (st st₁ st₂ : ConvState) (c : Nat) (t₂ : Option String)
    (s₂ : Option Nat) (v₂ : String) (hc : 1 ≤ c) (h1 : resolvedCol st = c)
    (hstep1 : cellEndStep ss styles b st = some st₁)
    (hstep2 : cellEndStep ss styles b
      { st₁ with cell_col := some c, cell_type := t₂, cell_style_idx := s₂,
                 cell_val := v₂ } = some st₂) :
    st₁.row_vals[c - 1]? =
      some (resolve_cell ss styles b st.cell_type st.cell_style_idx st.cell_val)
    ∧ st₂.row_vals[c - 1]? = some (resolve_cell ss styles b t₂ s₂ v₂) := by
  have hc0 : c ≠ 0 := by omega
  constructor
  · unfold cellEndStep at hstep1
    rw [h1, if_neg hc0] at hstep1
    have hrv : st₁.row_vals =
        (if st.row_vals.length < c then
          st.row_vals ++ List.replicate (c - st.row_vals.length) ""
        else st.row_vals).set (c - 1)
          (resolve_cell ss styles b st.cell_type st.cell_style_idx st.cell_val) := by
      cases hstep1
      rfl
    rw [hrv, List.getElem?_set_self]
    by_cases hlen : st.row_vals.length < c
    · simp [hlen]
      omega
    · simp [hlen]
      omega
  · unfold cellEndStep resolvedCol at hstep2
    simp only [Option.getD_some, if_neg hc0] at hstep2
    have hrv : st₂.row_vals =
        (if st₁.row_vals.length < c then
          st₁.row_vals ++ List.replicate (c - st₁.row_vals.length) ""
        else st₁.row_vals).set (c - 1) (resolve_cell ss styles b t₂ s₂ v₂) := by
      cases hstep2
      rfl
    rw [hrv, List.getElem?_set_self]
    by_cases hlen : st₁.row_vals.length < c
    · simp [hlen]
      omega
    · simp [hlen]
      omega

/-- Witness for `later_cell_overwrites`: two cells addressed to column 1,
first resolving to `"old"`, second to `"new"`; the buffer position holds
`"old"` after the first close and `"new"` after the second. -/
theorem later_cell_overwrites_witness :
    (⟨none, 1, ["old"], none, none, none, ""⟩ : ConvState).row_vals[0]? =
        some (resolve_cell [] [] false (some "str") none "old")
    ∧ (⟨none, 1, ["new"], none, none, none, ""⟩ : ConvState).row_vals[0]? =
        some (resolve_cell [] [] false (some "str") none "new") :=
  later_cell_overwrites [] [] false
    ⟨none, 1, [], some 1, some "str", none, "old"⟩
    ⟨none, 1, ["old"], none, none, none, ""⟩
    ⟨none, 1, ["new"], none, none, none, ""⟩ 1 (some "str") none "new"
    (by decide) (by decide) (by decide) (by decide)

/-- `Char.toNat` after `Char.ofNat` of a valid codepoint. -/
theorem toNat_ofNat_valid {m : Nat} (h : m.isValidChar) :
    (Char.ofNat m).toNat = m := by
  simp [Char.ofNat, dif_pos h, Char.ofNatAux, Char.toNat, UInt32.toNat]

/-- Uppercasing an ASCII-alphabetic character lands in `A..=Z`. -/
theorem alpha_toUpper_bounds (c : Char) (h : c.isAlpha = true) :
    65 ≤ (Char.toUpper c).toNat ∧ (Char.toUpper c).toNat ≤ 90 := by
  simp [Char.isAlpha, Char.isUpper, Char.isLower, UInt32.le_def,
    BitVec.le_def] at h
  have h' : (65 ≤ c.toNat ∧ c.toNat ≤ 90) ∨ (97 ≤ c.toNat ∧ c.toNat ≤ 122) := h
  unfold Char.toUpper
  rcases h' with h' | h'
  · rw [if_neg (by omega)]
    exact h'
  · rw [if_pos (by omega)]
    have hv : (c.toNat - 32).isValidChar := Or.inl (by omega)
    rw [toNat_ofNat_valid hv]
    omega

/-- The unwrapped bijective base-26 column value — `col_to_index`'s loop
without the u32 wrap (specification-side reference value). -/
def colValPure : Nat → List Char → Nat
  | n, [] => n
  | n, c :: rest =>
      if 65 ≤ c.toNat ∧ c.toNat ≤ 90 then
        colValPure (n * 26 + (c.toNat - 64)) rest
      else n

/-- The accumulator never decreases along `colValPure`. -/
theorem colValPure_mono : ∀ (cs : List Char) (n : Nat), n ≤ colValPure n cs
  | [], n => le_refl n
  | c :: rest, n => by
      unfold colValPure
      by_cases h : 65 ≤ c.toNat ∧ c.toNat ≤ 90
      · rw [if_pos h]
        calc n ≤ n * 26 + (c.toNat - 64) := by omega
          _ ≤ _ := colValPure_mono rest _
      · rw [if_neg h]

/-- Below `2^32` the wrapped loop agrees with the unwrapped value. -/
theorem col_to_index_aux_eq_pure : ∀ (cs : List Char) (n : Nat),
    colValPure n cs < 2 ^ 32 → col_to_index_aux n cs = colValPure n cs
  | [], _, _ => rfl
  | c :: rest, n, h => by
      have hstep : colValPure n (c :: rest) =
          if 65 ≤ c.toNat ∧ c.toNat ≤ 90 then
            colValPure (n * 26 + (c.toNat - 64)) rest
          else n := rfl
      by_cases hc : 65 ≤ c.toNat ∧ c.toNat ≤ 90
      · rw [hstep, if_pos hc] at h
        have hlt : n * 26 + (c.toNat - 64) < 2 ^ 32 :=
          lt_of_le_of_lt (colValPure_mono rest _) h
        have hstep2 : col_to_index_aux n (c :: rest) =
            if 65 ≤ c.toNat ∧ c.toNat ≤ 90 then
              col_to_index_aux ((n * 26 + (c.toNat - 64)) % 2 ^ 32) rest
            else n := rfl
        calc col_to_index_aux n (c :: rest)
            = col_to_index_aux ((n * 26 + (c.toNat - 64)) % 2 ^ 32) rest := by
              rw [hstep2, if_pos hc]
          _ = col_to_index_aux (n * 26 + (c.toNat - 64)) rest := by
              rw [Nat.mod_eq_of_lt hlt]
          _ = colValPure (n * 26 + (c.toNat - 64)) rest :=
              col_to_index_aux_eq_pure rest _ h
          _ = colValPure n (c :: rest) := by rw [hstep, if_pos hc]
      · have hL : col_to_index_aux n (c :: rest) =
            if 65 ≤ c.toNat ∧ c.toNat ≤ 90 then
              col_to_index_aux ((n * 26 + (c.toNat - 64)) % 2 ^ 32) rest
            else n := rfl
        rw [hL, hstep, if_neg hc, if_neg hc]

/-- A non-empty `A..=Z` string has positive unwrapped column value. -/
theorem colValPure_pos (c : Char) (rest : List Char) (h1 : 65 ≤ c.toNat)
    (h2 : c.toNat ≤ 90) : 1 ≤ colValPure 0 (c :: rest) := by
  unfold colValPure
  rw [if_pos ⟨h1, h2⟩]
  calc 1 ≤ 0 * 26 + (c.toNat - 64) := by omega
    _ ≤ _ := colValPure_mono rest _

/-- C6 counterexample: `"A0"` yields a reference with row 0 (the row text
`"0"` parses as the u32 0), violating the claimed invariant row ≥ 1; in
addition the seven-letter column `"MWLQKWV"` has bijective base-26 value
exactly `2^32`, so the u32 arithmetic wraps and `"MWLQKWV1"` yields a
reference with column 0. -/
theorem cell_ref_invariant_counterexample :
    parse_cell_ref "A0" = some ⟨1, 0⟩
    ∧ parse_cell_ref "MWLQKWV1" = some ⟨0, 1⟩
    ∧ ¬1 ≤ (0 : Nat) := by
  exact ⟨by decide, by decide, by decide⟩

/-- C6 (amended): an address with no letter part or no digit part yields no
reference; every yielded reference whose letter part's bijective base-26
value stays below `2^32` (no u32 wrap) has column ≥ 1; the row is exactly
the u32 parse of the non-letter characters and may be 0 (e.g. `"A0"`). -/
theorem cell_ref_invariants (s : String) :
    ((s.data.filter Char.isAlpha = [] ∨ s.data.filter (fun c => !c.isAlpha) = []) →
      parse_cell_ref s = none)
    ∧ (∀ r, parse_cell_ref s = some r →
        colValPure 0 ((s.data.filter Char.isAlpha).map Char.toUpper) < 2 ^ 32 →
        1 ≤ r.col)
    ∧ (∀ r, parse_cell_ref s = some r →
        parseU32 (String.mk (s.data.filter (fun c => !c.isAlpha))) = some r.row) := by
  refine ⟨fun h => ?_, fun r hr hlt => ?_, fun r hr => ?_⟩
  · unfold parse_cell_ref
    rcases h with h | h <;> simp [h]
  · unfold parse_cell_ref at hr
    by_cases hemp : ((s.data.filter Char.isAlpha).map Char.toUpper).isEmpty ∨
        (s.data.filter (fun c => !c.isAlpha)).isEmpty
    · rw [if_pos hemp] at hr
      cases hr
    · rw [if_neg hemp] at hr
      rcases hp : parseU32 (String.mk (s.data.filter (fun c => !c.isAlpha)))
        with _ | rv
      · rw [hp] at hr
        cases hr
      · rw [hp] at hr
        cases hr
        have hne : (s.data.filter Char.isAlpha).map Char.toUpper ≠ [] := by
          intro hnil
          exact hemp (Or.inl (by simp [hnil]))
        rcases List.exists_cons_of_ne_nil hne with ⟨c, rest, hcc⟩
        have hmem : c ∈ (s.data.filter Char.isAlpha).map Char.toUpper := by
          rw [hcc]
          exact List.mem_cons_self c rest
        rcases List.mem_map.mp hmem with ⟨c₀, hc₀, hceq⟩
        have hb := alpha_toUpper_bounds c₀ (List.of_mem_filter hc₀)
        rw [hceq] at hb
        show 1 ≤ col_to_index (String.mk ((s.data.filter Char.isAlpha).map
          Char.toUpper))
        unfold col_to_index
        show 1 ≤ col_to_index_aux 0 ((s.data.filter Char.isAlpha).map
          Char.toUpper)
        rw [col_to_index_aux_eq_pure _ _ hlt, hcc]
        exact colValPure_pos c rest hb.1 hb.2
  · unfold parse_cell_ref at hr
    by_cases hemp : ((s.data.filter Char.isAlpha).map Char.toUpper).isEmpty ∨
        (s.data.filter (fun c => !c.isAlpha)).isEmpty
    · rw [if_pos hemp] at hr
      cases hr
    · rw [if_neg hemp] at hr
      rcases hp : parseU32 (String.mk (s.data.filter (fun c => !c.isAlpha)))
        with _ | rv
      · rw [hp] at hr
        cases hr
      · rw [hp] at hr
        cases hr
        simpa using hp

/-- Witness for `cell_ref_invariants`: a digit-only address yields nothing,
and `"B7"` yields column 2 (≥ 1) with row parsed as 7. -/
theorem cell_ref_invariants_witness :
    parse_cell_ref "123" = none
    ∧ 1 ≤ (CellRef.mk 2 7).col
    ∧ parseU32 (String.mk ("B7".data.filter (fun c => !c.isAlpha))) =
        some (CellRef.mk 2 7).row :=
  ⟨(cell_ref_invariants "123").1 (Or.inl (by decide)),
   (cell_ref_invariants "B7").2.1 ⟨2, 7⟩ (by decide) (by decide),
   (cell_ref_invariants "B7").2.2 ⟨2, 7⟩ (by decide)⟩

/-- Dropping a prefix never lengthens a list. -/
theorem dropWhileLengthLe {α : Type} (p : α → Bool) :
    ∀ L : List α, (L.dropWhile p).length ≤ L.length
  | [] => le_refl 0
  | a :: t => by
      by_cases hp : p a
      · rw [List.dropWhile_cons_of_pos hp]
        exact le_trans (dropWhileLengthLe p t) (by simp)
      · rw [List.dropWhile_cons_of_neg hp]

/-- One past the first index satisfying `p` (the computation `rowWidth`
performs on the reversed buffer, i.e. `rposition` counted from the front)
equals the length left after dropping the leading elements failing `p`. -/
theorem findIdxMapSubEqDropWhile {α : Type} (p : α → Bool) :
    ∀ L : List α,
      ((L.findIdx? p).map (fun j => L.length - j)).getD 0 =
        (L.dropWhile (fun c => !p c)).length
  | [] => rfl
  | a :: t => by
      by_cases hp : p a
      · simp [List.findIdx?_cons, hp]
      · rw [List.findIdx?_cons, if_neg (by simp [hp]), List.findIdx?_succ,
          List.dropWhile_cons_of_pos (by simp [hp])]
        have ih := findIdxMapSubEqDropWhile p t
        rcases hf : t.findIdx? p with _ | j
        · rw [hf] at ih
          simpa using ih
        · rw [hf] at ih
          simp only [Option.map_some', Option.getD_some] at ih
          simp only [Option.map_some', Option.map_map, Function.comp,
            Option.getD_some, List.length_cons]
          omega

/-- Every position strictly before the dropped-prefix boundary satisfies
the dropped predicate. -/
theorem dropWhilePrefixAll {α : Type} (p : α → Bool) :
    ∀ (L : List α) (j : Nat), j < L.length - (L.dropWhile p).length →
      ∃ a, L[j]? = some a ∧ p a = true
  | [], j, h => by simp at h
  | a :: t, j, h => by
      by_cases hp : p a
      · rw [List.dropWhile_cons_of_pos hp] at h
        cases j with
        | zero => exact ⟨a, by simp, hp⟩
        | succ j' =>
            have hlen := dropWhileLengthLe p t
            have h' : j' < t.length - (t.dropWhile p).length := by
              simp only [List.length_cons] at h
              omega
            rcases dropWhilePrefixAll p t j' h' with ⟨b, hb, hpb⟩
            exact ⟨b, by simpa using hb, hpb⟩
      · rw [List.dropWhile_cons_of_neg hp] at h
        omega

/-- The first element after the dropped prefix fails the predicate. -/
theorem dropWhileHeadNot {α : Type} (p : α → Bool) :
    ∀ L : List α, L.dropWhile p ≠ [] →
      ∃ a, L[L.length - (L.dropWhile p).length]? = some a ∧ p a = false
  | [], h => absurd rfl h
  | a :: t, h => by
      by_cases hp : p a
      · rw [List.dropWhile_cons_of_pos hp] at h ⊢
        rcases dropWhileHeadNot p t h with ⟨b, hb, hpb⟩
        have hlen := dropWhileLengthLe p t
        have hidx : (a :: t).length - (t.dropWhile p).length
            = (t.length - (t.dropWhile p).length) + 1 := by
          simp only [List.length_cons]
          omega
        refine ⟨b, ?_, hpb⟩
        rw [hidx, List.getElem?_cons_succ]
        exact hb
      · rw [List.dropWhile_cons_of_neg hp]
        have hidx : (a :: t).length - (a :: t).length = 0 := by omega
        exact ⟨a, by rw [hidx]; simp, by simpa using hp⟩

/-- `rowWidth` as the trailing-trimmed length of the buffer. -/
theorem rowWidth_eq_dropWhile (vs : List String) :
    rowWidth vs = (vs.reverse.dropWhile String.isEmpty).length := by
  unfold rowWidth
  have h := findIdxMapSubEqDropWhile (fun c => !c.isEmpty) vs.reverse
  simp only [List.length_reverse] at h
  have hfun : (fun c : String => !!c.isEmpty) = String.isEmpty := by
    funext c
    simp
  rw [h, hfun]

/-- The fixed width never exceeds the first row's buffer length. -/
theorem rowWidth_le (vs : List String) : rowWidth vs ≤ vs.length := by
  rw [rowWidth_eq_dropWhile]
  calc (vs.reverse.dropWhile String.isEmpty).length
      ≤ vs.reverse.length := dropWhileLengthLe _ _
    _ = vs.length := List.length_reverse vs

/-- Every buffer position at or past `rowWidth` is empty (the width trims
exactly the trailing empty cells). -/
theorem rowWidth_trailing_empty (vs : List String) (i : Nat)
    (h : rowWidth vs ≤ i) : vs[i]? = none ∨ vs[i]? = some "" := by
  by_cases hi : i < vs.length
  · right
    have hb := rowWidth_eq_dropWhile vs
    have hle := rowWidth_le vs
    have hrev : vs.reverse[vs.length - 1 - i]? = vs[i]? :=
      List.getElem?_reverse' _ _ (by omega)
    have hj : vs.length - 1 - i <
        vs.reverse.length - (vs.reverse.dropWhile String.isEmpty).length := by
      rw [List.length_reverse]
      omega
    rcases dropWhilePrefixAll String.isEmpty vs.reverse _ hj with ⟨a, ha, hpa⟩
    rw [hrev] at ha
    rw [ha, (String.isEmpty_iff a).mp hpa]
  · left
    exact List.getElem?_eq_none (by omega)

/-- When `rowWidth` is positive, the position just before it holds a
non-empty cell (the width is one past the last non-empty position). -/
theorem rowWidth_last_nonempty (vs : List String) (h : rowWidth vs ≠ 0) :
    ∃ v, vs[rowWidth vs - 1]? = some v ∧ v ≠ "" := by
  have hb := rowWidth_eq_dropWhile vs
  have hle := rowWidth_le vs
  have hne : vs.reverse.dropWhile String.isEmpty ≠ [] := by
    intro hnil
    rw [hnil] at hb
    exact h (by simpa using hb)
  rcases dropWhileHeadNot String.isEmpty vs.reverse hne with ⟨a, ha, hpa⟩
  have hidx : vs.reverse.length - (vs.reverse.dropWhile String.isEmpty).length
      = vs.length - rowWidth vs := by
    rw [List.length_reverse, hb]
  rw [hidx] at ha
  have hrev : vs.reverse[vs.length - rowWidth vs]? = vs[rowWidth vs - 1]? :=
    List.getElem?_reverse' _ _ (by omega)
  rw [hrev] at ha
  refine ⟨a, ha, fun heq => ?_⟩
  have htrue : "".isEmpty = true := (String.isEmpty_iff "").mpr rfl
  rw [heq, htrue] at hpa
  cases hpa

/-- C4: the first closed row fixes `column_count` to one past its last
non-empty trailing position (trailing empties trimmed for width
determination only — the first row itself is written unpadded and
untrimmed, interior gaps kept); every later closed row is padded with empty
strings up to `column_count` when shorter and written unchanged — never
truncated — when at least as wide. -/
theorem row_close_semantics (st : ConvState) :
    (∀ ss styles b, stepEvent ss styles b st (.End "row") =
      some (rowEndStep st))
    ∧ (st.num_columns = none →
        (rowEndStep st).1.num_columns = some (rowWidth st.row_vals)
        ∧ (rowEndStep st).2 = [st.row_vals])
    ∧ (∀ n, st.num_columns = some n →
        (rowEndStep st).1.num_columns = some n
        ∧ (st.row_vals.length < n →
            (rowEndStep st).2 =
              [st.row_vals ++ List.replicate (n - st.row_vals.length) ""])
        ∧ (n ≤ st.row_vals.length → (rowEndStep st).2 = [st.row_vals]))
    ∧ rowWidth st.row_vals ≤ st.row_vals.length
    ∧ (∀ i, rowWidth st.row_vals ≤ i →
        st.row_vals[i]? = none ∨ st.row_vals[i]? = some "")
    ∧ (rowWidth st.row_vals ≠ 0 →
        ∃ v, st.row_vals[rowWidth st.row_vals - 1]? = some v ∧ v ≠ "") := by
  refine ⟨fun ss styles b => rfl, fun h => ?_, fun n h => ?_,
    rowWidth_le st.row_vals, rowWidth_trailing_empty st.row_vals,
    rowWidth_last_nonempty st.row_vals⟩
  · have hpad : ¬st.row_vals.length < rowWidth st.row_vals :=
      not_lt.mpr (rowWidth_le st.row_vals)
    constructor <;> simp [rowEndStep, h, hpad]
  · refine ⟨by simp [rowEndStep, h], fun hlt => ?_, fun hge => ?_⟩
    · simp [rowEndStep, h, hlt]
    · simp [rowEndStep, h, not_lt.mpr hge]

/-- Witness for `row_close_semantics`: closing the first row with buffer
`["a", "", "b", ""]` fixes the width at 3 and writes the buffer unchanged;
closing a later one-cell row under width 3 pads it with two empties, and a
three-cell row under width 2 is written unchanged. -/
theorem row_close_semantics_witness :
    (rowEndStep ⟨none, 1, ["a", "", "b", ""], none, none, none, ""⟩).1.num_columns
        = some (rowWidth ["a", "", "b", ""])
    ∧ (rowEndStep ⟨none, 1, ["a", "", "b", ""], none, none, none, ""⟩).2 =
        [["a", "", "b", ""]]
    ∧ (rowEndStep ⟨some 3, 2, ["x"], none, none, none, ""⟩).2 =
        [["x"] ++ List.replicate (3 - ["x"].length) ""]
    ∧ (rowEndStep ⟨some 2, 2, ["x", "y", "z"], none, none, none, ""⟩).2 =
        [["x", "y", "z"]] :=
  ⟨((row_close_semantics ⟨none, 1, ["a", "", "b", ""], none, none, none,
      ""⟩).2.1 rfl).1,
   ((row_close_semantics ⟨none, 1, ["a", "", "b", ""], none, none, none,
      ""⟩).2.1 rfl).2,
   ((row_close_semantics ⟨some 3, 2, ["x"], none, none, none, ""⟩).2.2.1 3
      rfl).2.1 (by decide),
   ((row_close_semantics ⟨some 2, 2, ["x", "y", "z"], none, none, none,
      ""⟩).2.2.1 2 rfl).2.2 (by decide)⟩

/-- C1: an untyped (numeric) cell whose trimmed text parses as a number and
whose style index resolves to a date-flagged style is replaced by the
serial-date converter's output (with the raw text kept only when the
converter yields nothing); the converter splits the serial into integer day
count and day fraction, subtracts the epoch-day offset (25569 for the 1900
epoch, 24107 for 1904), scales by 86400, adds the rounded fractional
seconds and formats the Unix timestamp — so serial 44197 under a style
built from format id 14 with apply-formatting `"1"` yields exactly
`"2021-01-01T00:00:00.000Z"`. -/
theorem date_cell_resolution :
    (∀ (ss : List String) (styles : List StyleInfo) (b : Bool)
        (sIdx : Option Nat) (txt : String) (q : ℚ),
        parseF64 (rustTrim txt) = some q →
        style_is_date styles sIdx = true →
        resolve_cell ss styles b none sIdx txt =
          (excel_serial_to_iso_date q b).getD txt)
    ∧ excel_serial_to_iso_date 44197 false = some "2021-01-01T00:00:00.000Z"
    ∧ resolve_cell []
        [process_xf [("numFmtId", "14"), ("applyNumberFormat", "1")]
          (fun _ => none)] false none (some 0) "44197" =
        "2021-01-01T00:00:00.000Z" := by
  refine ⟨fun ss styles b sIdx txt q hq hd => ?_, ?_, ?_⟩
  · simp [resolve_cell, hq, hd]
  · with_unfolding_all rfl
  · with_unfolding_all rfl

/-- Witness for `date_cell_resolution`: the general clause applied to the
serial text `"44197"` under a date-flagged style at index 0. -/
theorem date_cell_resolution_witness :
    parseF64 (rustTrim "44197") = some 44197
    ∧ style_is_date [⟨true⟩] (some 0) = true
    ∧ resolve_cell [] [⟨true⟩] false none (some 0) "44197" =
        (excel_serial_to_iso_date 44197 false).getD "44197" :=
  ⟨by with_unfolding_all rfl, by decide,
   date_cell_resolution.1 [] [⟨true⟩] false (some 0) "44197" 44197
     (by with_unfolding_all rfl) (by decide)⟩
